import Mathlib

/-!
Verification of the `zk-counterparty` command-line shim
(`src/aleo_python/hash_integer.py`).

The visible source is a thin CLI around an external hashing primitive
`hash_int` imported from the `aleo_python` package.  We embed the shim
shallowly: Python exceptions become an `Except` result, the `hash_int`
primitive is an explicit function argument of type `Int → Except PyError Int`
(the source never inspects it), and the string-to-integer conversion
performed by Python built-in `int()` on decimal text is modelled by `pyInt`
below.
-/

/-- Exceptions that can cross the boundary between the shim and the external
primitive.  `valueError` is the Python `ValueError` that `int()` raises on
unparseable text (and that the shim catches); `inputTooLarge` is the failure
the specification assigns to the external hash core; `other` stands for any
further exception class, which the shim does not catch. -/
inductive PyError where
  | valueError
  | inputTooLarge
  | other
deriving DecidableEq, Repr

/-- ASCII whitespace stripped by Python `int()` before parsing
(space, tab, newline, vertical tab, form feed, carriage return). -/
def isPySpace (c : Char) : Bool :=
  c.toNat = 32 || c.toNat = 9 || c.toNat = 10 ||
  c.toNat = 11 || c.toNat = 12 || c.toNat = 13

/-- ASCII decimal digit test. -/
def isDecDigit (c : Char) : Bool :=
  48 ≤ c.toNat && c.toNat ≤ 57

/-- Continues reading a decimal digit run with accumulator `acc`; a single
underscore is allowed between two digits, as in Python integer literals. -/
def parseDigitsGo (acc : Nat) : List Char → Option Nat
  | [] => some acc
  | c :: cs =>
    if isDecDigit c then parseDigitsGo (10 * acc + (c.toNat - 48)) cs
    else if c.toNat = 95 then
      match cs with
      | d :: cs2 =>
        if isDecDigit d then parseDigitsGo (10 * acc + (d.toNat - 48)) cs2
        else none
      | [] => none
    else none

/-- Reads a nonempty decimal digit run (underscore separators allowed between
digits), returning its value. -/
def parseDigits : List Char → Option Nat
  | [] => none
  | c :: cs =>
    if isDecDigit c then parseDigitsGo (c.toNat - 48) cs else none

/-- Strips leading and trailing Python whitespace from a character list. -/
def pyStrip (l : List Char) : List Char :=
  ((l.dropWhile isPySpace).reverse.dropWhile isPySpace).reverse

/-- Model of Python `int(s)` on a string: strip surrounding whitespace, read
an optional sign, then a nonempty decimal digit run.  `none` models the
`ValueError` raised on unparseable text. -/
def pyInt (s : String) : Option Int :=
  match pyStrip s.toList with
  | '+' :: rest => (parseDigits rest).map (fun m => (m : Int))
  | '-' :: rest => (parseDigits rest).map (fun m => -(m : Int))
  | rest => (parseDigits rest).map (fun m => (m : Int))

/-- The shim function `hash_integer` from `src/aleo_python/hash_integer.py`:
it forwards its argument to the external primitive and returns the result. -/
def hash_integer (hashInt : Int → Except PyError Int) (n : Int) :
    Except PyError Int :=
  hashInt n

/-- The exact messages printed by the `__main__` block. -/
def invalidMsg : String := "Invalid input. Please provide an integer."

/-- Usage hint printed when no argument is supplied. -/
def usageMsg : String := "Please provide an integer as a command line argument."

/-- The success line printed by the `__main__` block, with the parsed integer
and the digest rendered the way the Python f-string renders them. -/
def successMsg (n d : Int) : String :=
  "The hash of " ++ toString n ++ " is " ++ toString d ++ "."

/-- The `__main__` block of `src/aleo_python/hash_integer.py`.  Its sole
observable effect is one printed line; an uncaught exception is an `error`
result.  `len(sys.argv) > 1` corresponds to the list having a second element;
the `try` block covers both `int(sys.argv[1])` and the `hash_integer` call,
and catches exactly `ValueError`. -/
def mainOutput (hashInt : Int → Except PyError Int) (argv : List String) :
    Except PyError String :=
  match argv with
  | _ :: arg1 :: _ =>
    match pyInt arg1 with
    | some n =>
      match hash_integer hashInt n with
      | .ok d => .ok (successMsg n d)
      | .error .valueError => .ok invalidMsg
      | .error e => .error e
    | none => .ok invalidMsg
  | _ => .ok usageMsg

/-- Modelled from the spec: the external `hash_int` primitive of the
`aleo_python` package is absent from the visible sources.  Per the spec it is
a pure, deterministic hash whose valid domain is the non-negative integers up
to the configured capacity (the maximum representable magnitude); it is total
there, and an in-range-sign input exceeding the capacity fails with
`InputTooLarge`.  The treatment of negative inputs is an open sign-policy
decision the spec forbids guessing, so it is kept abstract as `signPolicy`:
on a negative input the core either yields a digest under the configured
encoding (`some`) or reports the input out of domain (`none`), the only
failure report the core has.  The digest computation itself is likewise kept
abstract as `digestOf`. -/
def hash_int (capacity : Nat) (digestOf : Int → Int)
    (signPolicy : Int → Option Int) (n : Int) : Except PyError Int :=
  if n < 0 then
    match signPolicy n with
    | some d => .ok d
    | none => .error .inputTooLarge
  else if (capacity : Int) < n then .error .inputTooLarge
  else .ok (digestOf n)

/-- A concrete stand-in for the external primitive, used to evaluate the
theorems below at concrete inputs. -/
def demoHash : Int → Except PyError Int :=
  fun n => .ok (n * n + 1)

/-- A stand-in external primitive that always raises `ValueError`. -/
def valueErrorHash : Int → Except PyError Int :=
  fun _ => .error .valueError

/-! ### Helper lemmas -/

theorem not_space_of_digit (c : Char) (h : isDecDigit c = true) :
    isPySpace c = false := by
  simp only [isDecDigit, Bool.and_eq_true, decide_eq_true_eq] at h
  simp only [isPySpace, Bool.or_eq_false_iff, decide_eq_false_iff_not]
  omega

theorem dropWhile_eq_self_of (p : Char → Bool) (l : List Char)
    (h : ∀ c ∈ l, p c = false) : l.dropWhile p = l := by
  cases l with
  | nil => rfl
  | cons a t => simp [List.dropWhile_cons, h a (List.mem_cons_self a t)]

theorem parseDigitsGo_isSome (l : List Char) (acc : Nat)
    (h : ∀ c ∈ l, isDecDigit c = true) :
    ∃ m, parseDigitsGo acc l = some m := by
  induction l generalizing acc with
  | nil => exact ⟨acc, rfl⟩
  | cons c cs ih =>
    have hc : isDecDigit c = true := h c (List.mem_cons_self c cs)
    unfold parseDigitsGo
    rw [hc]
    simp only [if_true]
    exact ih _ (fun d hd => h d (List.mem_cons_of_mem c hd))

theorem parseDigits_isSome (l : List Char) (hne : l ≠ [])
    (h : ∀ c ∈ l, isDecDigit c = true) :
    ∃ m, parseDigits l = some m := by
  cases l with
  | nil => exact absurd rfl hne
  | cons c cs =>
    have hc : isDecDigit c = true := h c (List.mem_cons_self c cs)
    simp only [parseDigits, hc, if_true]
    exact parseDigitsGo_isSome cs _ (fun d hd => h d (List.mem_cons_of_mem c hd))

theorem pyStrip_neg_digits (l : List Char) (h : ∀ c ∈ l, isDecDigit c = true) :
    pyStrip ('-' :: l) = '-' :: l := by
  have h1 : ∀ c ∈ ('-' :: l), isPySpace c = false := by
    intro c hc
    rcases List.mem_cons.mp hc with rfl | hcl
    · decide
    · exact not_space_of_digit c (h c hcl)
  unfold pyStrip
  rw [dropWhile_eq_self_of _ _ h1,
      dropWhile_eq_self_of _ _ (fun c hc => h1 c (List.mem_reverse.mp hc)),
      List.reverse_reverse]

/-! ### Claim theorems -/

/-- Claim C1: for every integer `n`, `hash_integer n` returns exactly the
result of the external primitive `hash_int` applied to `n`, with no
transformation, validation, or additional computation by the shim. -/
theorem hash_integer_forwards (hashInt : Int → Except PyError Int) (n : Int) :
    hash_integer hashInt n = hashInt n := rfl

/-- Claim C2: `hash_integer` is deterministic — two calls on equal arguments
yield identical results, the external `hash_int` being modelled as a pure
function. -/
theorem hash_integer_deterministic (hashInt : Int → Except PyError Int)
    (n₁ n₂ : Int) (h : n₁ = n₂) :
    hash_integer hashInt n₁ = hash_integer hashInt n₂ := by rw [h]

/-- Witness for claim C2 at the concrete input `5`. -/
theorem hash_integer_deterministic_witness :
    hash_integer demoHash 5 = hash_integer demoHash 5 :=
  hash_integer_deterministic demoHash 5 5 rfl

/-- Claim C3: over the spec-modelled hash core, for every resolution of the
open sign policy: the hash returns a digest for every integer in the valid
domain (non-negative and at most the configured capacity); a non-negative
input exceeding the capacity fails with `InputTooLarge`; on any integer
whatsoever the core either returns a digest or reports `InputTooLarge`, with
no other failure mode; and a CLI run over this core either prints a message
(a digest line, the invalid-input report, or the usage hint) or surfaces
`InputTooLarge` — no other failure ever escapes. -/
theorem hash_core_total_and_cli_failures (capacity : Nat)
    (digestOf : Int → Int) (signPolicy : Int → Option Int) :
    (∀ n : Int, 0 ≤ n → n ≤ (capacity : Int) →
      hash_int capacity digestOf signPolicy n = .ok (digestOf n)) ∧
    (∀ n : Int, (capacity : Int) < n →
      hash_int capacity digestOf signPolicy n = .error .inputTooLarge) ∧
    (∀ n : Int,
      (∃ d, hash_int capacity digestOf signPolicy n = .ok d) ∨
      hash_int capacity digestOf signPolicy n = .error .inputTooLarge) ∧
    (∀ argv : List String,
      (∃ msg,
        mainOutput (hash_int capacity digestOf signPolicy) argv = .ok msg) ∨
      mainOutput (hash_int capacity digestOf signPolicy) argv =
        .error .inputTooLarge) := by
  have hmodes : ∀ n : Int,
      (∃ d, hash_int capacity digestOf signPolicy n = .ok d) ∨
      hash_int capacity digestOf signPolicy n = .error .inputTooLarge := by
    intro n
    unfold hash_int
    by_cases hneg : n < 0
    · rw [if_pos hneg]
      cases signPolicy n with
      | some d => exact Or.inl ⟨d, rfl⟩
      | none => exact Or.inr rfl
    · rw [if_neg hneg]
      by_cases hc : (capacity : Int) < n
      · rw [if_pos hc]
        exact Or.inr rfl
      · rw [if_neg hc]
        exact Or.inl ⟨digestOf n, rfl⟩
  refine ⟨?_, ?_, hmodes, ?_⟩
  · intro n hn0 hncap
    simp [hash_int, not_lt.mpr hn0, not_lt.mpr hncap]
  · intro n hn
    have hn0 : ¬n < 0 := by omega
    simp [hash_int, hn0, hn]
  · intro argv
    match argv with
    | [] => exact Or.inl ⟨_, rfl⟩
    | [_] => exact Or.inl ⟨_, rfl⟩
    | _ :: arg1 :: _ =>
      cases hpa : pyInt arg1 with
      | none => exact Or.inl ⟨invalidMsg, by simp [mainOutput, hpa]⟩
      | some n =>
        rcases hmodes n with ⟨d, hd⟩ | herr
        · exact Or.inl ⟨successMsg n d,
            by simp [mainOutput, hpa, hash_integer, hd]⟩
        · exact Or.inr (by simp [mainOutput, hpa, hash_integer, herr])

/-- Witness for claim C3: with capacity 100 and a sign policy that rejects
negatives, the input 7 hashes successfully and the input 101 fails with
`InputTooLarge`. -/
theorem hash_core_total_and_cli_failures_witness :
    hash_int 100 (fun n => n + 1) (fun _ => none) 7 = .ok 8 ∧
    hash_int 100 (fun n => n + 1) (fun _ => none) 101 =
      .error .inputTooLarge :=
  ⟨(hash_core_total_and_cli_failures 100 (fun n => n + 1) (fun _ => none)).1
      7 (by decide) (by decide),
   (hash_core_total_and_cli_failures 100 (fun n => n + 1) (fun _ => none)).2.1
      101 (by decide)⟩

/-- Claim C4: when the argument is present but not parseable as an integer,
the run prints exactly the invalid-input message and terminates normally
(an `ok` result, not an escaping exception), with no digest output. -/
theorem invalid_argument_reported (hashInt : Int → Except PyError Int)
    (prog arg : String) (rest : List String) (h : pyInt arg = none) :
    mainOutput hashInt (prog :: arg :: rest) = .ok invalidMsg := by
  simp [mainOutput, h]

/-- Witness for claim C4 at the concrete argument string `abc`. -/
theorem invalid_argument_reported_witness :
    mainOutput demoHash ["prog", "abc"] = .ok invalidMsg :=
  invalid_argument_reported demoHash "prog" "abc" [] (by decide)

/-- Claim C5: when `argv` has length 1 (no argument beyond the program name),
the run prints the usage hint; nothing is parsed or hashed, the result being
the same for every choice of hashing primitive. -/
theorem missing_argument_usage_hint (hashInt : Int → Except PyError Int)
    (argv : List String) (h : argv.length = 1) :
    mainOutput hashInt argv = .ok usageMsg := by
  cases argv with
  | nil => simp at h
  | cons a t =>
    cases t with
    | nil => rfl
    | cons b t2 => simp at h

/-- Witness for claim C5 at the concrete argument vector of length 1. -/
theorem missing_argument_usage_hint_witness :
    mainOutput demoHash ["prog"] = .ok usageMsg :=
  missing_argument_usage_hint demoHash ["prog"] rfl

/-- Claim C6: on an argument that parses as an integer whose hash succeeds,
the run prints exactly one sentence of the form
`The hash of {input} is {digest}.` containing the parsed integer and the
digest. -/
theorem success_line_format (hashInt : Int → Except PyError Int)
    (prog arg : String) (rest : List String) (n d : Int)
    (hp : pyInt arg = some n) (hh : hashInt n = .ok d) :
    mainOutput hashInt (prog :: arg :: rest) = .ok (successMsg n d) := by
  simp [mainOutput, hash_integer, hp, hh]

/-- Witness for claim C6 at the concrete argument string `5`. -/
theorem success_line_format_witness :
    mainOutput demoHash ["prog", "5"] = .ok (successMsg 5 26) :=
  success_line_format demoHash "prog" "5" [] 5 26 (by decide) rfl

/-- Counterexample to claim C7: an invocation with two positional arguments
is accepted — the run parses and hashes the first argument, prints the digest
line for it, and behaves exactly as the single-argument invocation, rather
than rejecting the extra argument. -/
theorem single_argument_only_cex :
    mainOutput demoHash ["prog", "3", "junk"] = .ok (successMsg 3 10) ∧
    mainOutput demoHash ["prog", "3", "junk"] =
      mainOutput demoHash ["prog", "3"] := by
  exact ⟨rfl, rfl⟩

/-- Claim C7 (amended): the CLI reads only the first positional argument;
any further positional arguments are ignored, and the behaviour with several
arguments equals the behaviour with just the first. -/
theorem extra_arguments_ignored (hashInt : Int → Except PyError Int)
    (prog arg : String) (rest : List String) :
    mainOutput hashInt (prog :: arg :: rest) = mainOutput hashInt [prog, arg] :=
  rfl

/-- Claim C8: a negative decimal literal (a minus sign followed by digits)
parses successfully to the corresponding negative integer, and that negative
value is forwarded to the hashing primitive unchanged — no sign rejection,
encoding, or offsetting by the shim. -/
theorem negative_literals_forwarded (hashInt : Int → Except PyError Int)
    (t : String) (hne : t.toList ≠ [])
    (hdig : ∀ c ∈ t.toList, isDecDigit c = true) :
    ∃ m : Nat, parseDigits t.toList = some m ∧
      pyInt ("-" ++ t) = some (-(m : Int)) ∧
      ∀ d : Int, hashInt (-(m : Int)) = .ok d →
        mainOutput hashInt ["prog", "-" ++ t] =
          .ok (successMsg (-(m : Int)) d) := by
  obtain ⟨m, hm⟩ := parseDigits_isSome t.toList hne hdig
  have hlist : ("-" ++ t).toList = '-' :: t.toList := by
    show ("-" ++ t).data = '-' :: t.data
    rw [String.data_append]
    rfl
  have hparse : pyInt ("-" ++ t) = some (-(m : Int)) := by
    have hm2 : parseDigits t.data = some m := hm
    unfold pyInt
    rw [hlist, pyStrip_neg_digits t.toList hdig]
    simp [hm2]
  exact ⟨m, hm, hparse, fun d hd => by
    simp [mainOutput, hparse, hash_integer, hd]⟩

/-- Witness for claim C8 at the concrete literal `-5`. -/
theorem negative_literals_forwarded_witness :
    pyInt ("-" ++ "5") = some (-(5 : Int)) ∧
    mainOutput demoHash ["prog", "-" ++ "5"] =
      .ok (successMsg (-(5 : Int)) 26) := by
  obtain ⟨m, hm, hp, hmain⟩ :=
    negative_literals_forwarded demoHash "5" (by decide) (by decide)
  have hm5 : m = 5 := by
    have h2 : (some m : Option Nat) = some 5 := by rw [← hm]; decide
    exact Option.some.inj h2
  subst hm5
  exact ⟨hp, hmain 26 rfl⟩

/-- Claim C9: two argument strings that parse to the same integer value (for
example `5` and `05`) lead to identical runs — the same digest and the same
printed line. -/
theorem equal_values_equal_output (hashInt : Int → Except PyError Int)
    (prog s₁ s₂ : String) (r₁ r₂ : List String) (n : Int)
    (h₁ : pyInt s₁ = some n) (h₂ : pyInt s₂ = some n) :
    mainOutput hashInt (prog :: s₁ :: r₁) =
      mainOutput hashInt (prog :: s₂ :: r₂) := by
  simp [mainOutput, h₁, h₂]

/-- Witness for claim C9 at the concrete strings `5` and `05`. -/
theorem equal_values_equal_output_witness :
    mainOutput demoHash ["prog", "5"] = mainOutput demoHash ["prog", "05"] :=
  equal_values_equal_output demoHash "prog" "5" "05" [] [] 5
    (by decide) (by decide)

/-- Claim C10: the `try` block spans both parsing and hashing, so a
`ValueError` raised by the external `hash_int` itself is caught and reported
with the same invalid-input message as a parse failure; the two `ValueError`
sources are indistinguishable at the CLI interface. -/
theorem hash_value_error_indistinguishable
    (hashInt : Int → Except PyError Int) (prog arg bad : String)
    (rest : List String) (n : Int)
    (hp : pyInt arg = some n) (hh : hashInt n = .error .valueError)
    (hb : pyInt bad = none) :
    mainOutput hashInt (prog :: arg :: rest) = .ok invalidMsg ∧
    mainOutput hashInt (prog :: arg :: rest) =
      mainOutput hashInt (prog :: bad :: rest) := by
  have h1 : mainOutput hashInt (prog :: arg :: rest) = .ok invalidMsg := by
    simp [mainOutput, hp, hash_integer, hh]
  exact ⟨h1, by rw [h1]; simp [mainOutput, hb]⟩

/-- Witness for claim C10: a primitive that raises `ValueError` on the
parsed integer 7 yields the same run as the unparseable argument `abc`. -/
theorem hash_value_error_indistinguishable_witness :
    mainOutput valueErrorHash ["prog", "7"] = .ok invalidMsg ∧
    mainOutput valueErrorHash ["prog", "7"] =
      mainOutput valueErrorHash ["prog", "abc"] :=
  hash_value_error_indistinguishable valueErrorHash "prog" "7" "abc" [] 7
    (by decide) rfl (by decide)
